import Mathlib

/-!
Shallow embedding of the per-client token-bucket rate limiter of the
portfolio backend middleware: the configuration record, the per-client
limiter registry, the lazily-created token bucket, the janitor sweep, and
client-identifier resolution.

Timestamps and durations are rationals measured in seconds, and the token
count is rational, matching the real-valued token arithmetic of the bucket.
The token bucket itself lives in the external dependency
`golang.org/x/time/rate`, whose source is not part of this repository; its
state and operations are modelled from the spec and marked as such.
-/

/-- `RateLimitConfig` from the source. `RequestsPerSecond` and `BurstSize`
are machine integers (`int`) in the source; `CleanupInterval` is a
duration, modelled in seconds. -/
structure RateLimitConfig where
  RequestsPerSecond : Int
  BurstSize : Int
  CleanupInterval : ℚ
deriving DecidableEq

/-- Modelled from the spec: the token-bucket state of the external
`rate.Limiter` dependency — `tokens` (current admission credits) and
`lastRefillTime` (timestamp of the last bucket update). -/
structure TokenBucket where
  tokens : ℚ
  lastRefillTime : ℚ
deriving DecidableEq

/-- Modelled from the spec: the refill step of the external `rate.Limiter`:
`tokens = min(burstSize, tokens + elapsed * requestsPerSecond)` and
`lastRefillTime = now`. -/
def TokenBucket.refill (cfg : RateLimitConfig) (b : TokenBucket) (now : ℚ) :
    TokenBucket :=
  { tokens := min (cfg.BurstSize : ℚ)
      (b.tokens + (now - b.lastRefillTime) * (cfg.RequestsPerSecond : ℚ)),
    lastRefillTime := now }

/-- Modelled from the spec: the admission check of the external
`rate.Limiter.Allow`: refill, then admit iff at least one token is
available (boundary inclusive), consuming one token on admission and
leaving the refilled value unchanged on denial. -/
def TokenBucket.allowOne (cfg : RateLimitConfig) (b : TokenBucket) (now : ℚ) :
    Bool × TokenBucket :=
  let b' := TokenBucket.refill cfg b now
  if 1 ≤ b'.tokens then (true, { b' with tokens := b'.tokens - 1 })
  else (false, b')

/-- Modelled from the spec: the bucket of a freshly created client, as
built by `rate.NewLimiter` — `tokens = burstSize`, `lastRefillTime = now`. -/
def TokenBucket.fresh (cfg : RateLimitConfig) (now : ℚ) : TokenBucket :=
  { tokens := (cfg.BurstSize : ℚ), lastRefillTime := now }

/-- `ClientLimiter` from the source: the per-client bucket plus the
`lastSeen` timestamp used only by the janitor. -/
structure ClientLimiter where
  limiter : TokenBucket
  lastSeen : ℚ
deriving DecidableEq

/-- `RateLimiter` from the source: the registry mapping client identifiers
to their `ClientLimiter`, plus the immutable configuration. The mutex is
not modelled; it serializes `allow` calls, which the embedding reflects by
threading the registry state through sequential calls. -/
structure RateLimiter where
  clients : String → Option ClientLimiter
  config : RateLimitConfig

/-- `NewRateLimiter` from the source: empty registry, configuration stored
verbatim; no validation of the configuration is performed. -/
def NewRateLimiter (config : RateLimitConfig) : RateLimiter :=
  { clients := fun _ => none, config := config }

/-- `RateLimiter.allow` from the source: look up the client's limiter,
lazily creating a fresh one on first sighting, set `lastSeen := now`, and
delegate the decision to the bucket. -/
def RateLimiter.allow (rl : RateLimiter) (clientID : String) (now : ℚ) :
    Bool × RateLimiter :=
  let bucket :=
    match rl.clients clientID with
    | none => TokenBucket.fresh rl.config now
    | some cl => cl.limiter
  let res := TokenBucket.allowOne rl.config bucket now
  (res.1,
    { rl with clients := fun k =>
        if k = clientID then some { limiter := res.2, lastSeen := now }
        else rl.clients k })

/-- One tick of `RateLimiter.cleanupExpiredClients` from the source: with
`cutoff = now - cleanupInterval * 2`, delete exactly the entries whose
`lastSeen` is strictly before the cutoff. -/
def RateLimiter.cleanupExpiredClients (rl : RateLimiter) (now : ℚ) :
    RateLimiter :=
  let cutoff := now - rl.config.CleanupInterval * 2
  { rl with clients := fun k =>
      match rl.clients k with
      | some cl => if cl.lastSeen < cutoff then none else some cl
      | none => none }

/-- The request data consulted by `getClientID`: the two proxy headers and
the transport-level peer address (`c.ClientIP()`). -/
structure RequestContext where
  xRealIP : String
  xForwardedFor : String
  clientIP : String

/-- `RateLimiter.getClientID` from the source: the `X-Real-IP` header if
non-empty, else the `X-Forwarded-For` header if non-empty, else the
transport-level peer address. -/
def RateLimiter.getClientID (_rl : RateLimiter) (c : RequestContext) :
    String :=
  if c.xRealIP ≠ "" then c.xRealIP
  else if c.xForwardedFor ≠ "" then c.xForwardedFor
  else c.clientIP

/-- `DefaultRateLimitConfig` from the source: 10 req/s, burst 20, cleanup
every 5 minutes. -/
def DefaultRateLimitConfig : RateLimitConfig :=
  { RequestsPerSecond := 10, BurstSize := 20, CleanupInterval := 300 }

/-- `StrictRateLimitConfig` from the source: 5 req/s, burst 10, cleanup
every 5 minutes. -/
def StrictRateLimitConfig : RateLimitConfig :=
  { RequestsPerSecond := 5, BurstSize := 10, CleanupInterval := 300 }

/-- Decisions of `k` successive `allow` calls for one client at one
instant, threading the registry through the calls (the source's mutex
serializes concurrent calls into exactly such a sequence). -/
def allowSeq (rl : RateLimiter) (clientID : String) (now : ℚ) :
    Nat → List Bool
  | 0 => []
  | Nat.succ k =>
    let res := RateLimiter.allow rl clientID now
    res.1 :: allowSeq res.2 clientID now k

/-- Decisions of `k` successive bucket admission checks at one instant. -/
def bucketAllowSeq (cfg : RateLimitConfig) (b : TokenBucket) (now : ℚ) :
    Nat → List Bool
  | 0 => []
  | Nat.succ k =>
    let res := TokenBucket.allowOne cfg b now
    res.1 :: bucketAllowSeq cfg res.2 now k

/-- The registry after a sequence of `allow` calls for one client at the
given times. -/
def allowMany (rl : RateLimiter) (clientID : String) :
    List ℚ → RateLimiter
  | [] => rl
  | t :: ts => allowMany (RateLimiter.allow rl clientID t).2 clientID ts

/-! ### Basic facts about the registry operations -/

theorem allow_config (rl : RateLimiter) (id : String) (now : ℚ) :
    ((RateLimiter.allow rl id now).2).config = rl.config := rfl

theorem allow_clients_ne (rl : RateLimiter) (id k : String) (now : ℚ)
    (h : k ≠ id) :
    ((RateLimiter.allow rl id now).2).clients k = rl.clients k := by
  simp [RateLimiter.allow, h]

theorem allow_fst_some (rl : RateLimiter) (id : String) (now : ℚ)
    (cl : ClientLimiter) (hcl : rl.clients id = some cl) :
    (RateLimiter.allow rl id now).1
      = (TokenBucket.allowOne rl.config cl.limiter now).1 := by
  simp [RateLimiter.allow, hcl]

theorem allow_clients_self_some (rl : RateLimiter) (id : String) (now : ℚ)
    (cl : ClientLimiter) (hcl : rl.clients id = some cl) :
    ((RateLimiter.allow rl id now).2).clients id
      = some { limiter := (TokenBucket.allowOne rl.config cl.limiter now).2,
               lastSeen := now } := by
  simp [RateLimiter.allow, hcl]

theorem allow_fst_none (rl : RateLimiter) (id : String) (now : ℚ)
    (hcl : rl.clients id = none) :
    (RateLimiter.allow rl id now).1
      = (TokenBucket.allowOne rl.config
          (TokenBucket.fresh rl.config now) now).1 := by
  simp [RateLimiter.allow, hcl]

theorem allow_clients_self_none (rl : RateLimiter) (id : String) (now : ℚ)
    (hcl : rl.clients id = none) :
    ((RateLimiter.allow rl id now).2).clients id
      = some { limiter :=
                 (TokenBucket.allowOne rl.config
                   (TokenBucket.fresh rl.config now) now).2,
               lastSeen := now } := by
  simp [RateLimiter.allow, hcl]

theorem allowSeq_some (k : Nat) :
    ∀ (rl : RateLimiter) (id : String) (now : ℚ) (cl : ClientLimiter),
      rl.clients id = some cl →
      allowSeq rl id now k = bucketAllowSeq rl.config cl.limiter now k := by
  induction k with
  | zero => intro rl id now cl _; rfl
  | succ k ih =>
    intro rl id now cl hcl
    rw [allowSeq, bucketAllowSeq]
    rw [allow_fst_some rl id now cl hcl]
    congr 1
    have h2 := allow_clients_self_some rl id now cl hcl
    have := ih (RateLimiter.allow rl id now).2 id now _ h2
    rw [this, allow_config]

theorem allowSeq_none (k : Nat) (rl : RateLimiter) (id : String) (now : ℚ)
    (hcl : rl.clients id = none) :
    allowSeq rl id now k
      = bucketAllowSeq rl.config (TokenBucket.fresh rl.config now) now k := by
  cases k with
  | zero => rfl
  | succ k =>
    rw [allowSeq, bucketAllowSeq]
    rw [allow_fst_none rl id now hcl]
    congr 1
    have h2 := allow_clients_self_none rl id now hcl
    have := allowSeq_some k (RateLimiter.allow rl id now).2 id now _ h2
    rw [this, allow_config]

/-! ### Facts about the token bucket -/

theorem refill_eq_self (cfg : RateLimitConfig) (b : TokenBucket) (now : ℚ)
    (hlast : b.lastRefillTime = now) (h1 : b.tokens ≤ (cfg.BurstSize : ℚ)) :
    TokenBucket.refill cfg b now = b := by
  cases b with
  | mk t last =>
    simp only [TokenBucket.refill] at *
    subst hlast
    simp [min_eq_right h1]

theorem refill_refill (cfg : RateLimitConfig) (b : TokenBucket) (now : ℚ) :
    TokenBucket.refill cfg (TokenBucket.refill cfg b now) now
      = TokenBucket.refill cfg b now :=
  refill_eq_self cfg _ now rfl (min_le_left _ _)

theorem allowOne_refill (cfg : RateLimitConfig) (b : TokenBucket) (now : ℚ) :
    TokenBucket.allowOne cfg (TokenBucket.refill cfg b now) now
      = TokenBucket.allowOne cfg b now := by
  unfold TokenBucket.allowOne
  rw [refill_refill]

theorem bucketAllowSeq_refill (cfg : RateLimitConfig) (b : TokenBucket)
    (now : ℚ) (k : Nat) :
    bucketAllowSeq cfg (TokenBucket.refill cfg b now) now k
      = bucketAllowSeq cfg b now k := by
  cases k with
  | zero => rfl
  | succ k => rw [bucketAllowSeq, bucketAllowSeq, allowOne_refill]

/-- The shape of any run of immediate admission checks: with the bucket
already refilled at `now` and holding `t` tokens, the first `⌊t⌋₊` checks
admit and every later one denies. -/
theorem bucketAllowSeq_replicate (cfg : RateLimitConfig) (B : ℕ)
    (hB : cfg.BurstSize = (B : ℤ)) (now : ℚ) :
    ∀ (k : Nat) (b : TokenBucket), b.lastRefillTime = now →
      0 ≤ b.tokens → b.tokens ≤ (B : ℚ) →
      bucketAllowSeq cfg b now k
        = List.replicate (min k ⌊b.tokens⌋₊) true
            ++ List.replicate (k - ⌊b.tokens⌋₊) false := by
  intro k
  induction k with
  | zero => intro b _ _ _; simp [bucketAllowSeq]
  | succ k ih =>
    intro b hlast h0 h1
    have hBq : ((cfg.BurstSize : Int) : ℚ) = (B : ℚ) := by rw [hB]; push_cast; rfl
    have hrefill : TokenBucket.refill cfg b now = b :=
      refill_eq_self cfg b now hlast (by rw [hBq]; exact h1)
    rw [bucketAllowSeq]
    by_cases hadm : 1 ≤ b.tokens
    · have hfst : (TokenBucket.allowOne cfg b now).1 = true := by
        simp [TokenBucket.allowOne, hrefill, hadm]
      have hsnd : (TokenBucket.allowOne cfg b now).2
          = { b with tokens := b.tokens - 1 } := by
        simp [TokenBucket.allowOne, hrefill, hadm]
      rw [hfst, hsnd]
      have h0' : (0:ℚ) ≤ b.tokens - 1 := by linarith
      have h1' : b.tokens - 1 ≤ (B:ℚ) := by linarith
      rw [ih { b with tokens := b.tokens - 1 } hlast h0' h1']
      have hm : 1 ≤ ⌊b.tokens⌋₊ := Nat.le_floor (by exact_mod_cast hadm)
      have hfl : ⌊b.tokens - 1⌋₊ = ⌊b.tokens⌋₊ - 1 := Nat.floor_sub_one _
      simp only [hfl]
      obtain ⟨m, hmeq⟩ : ∃ m, ⌊b.tokens⌋₊ = m + 1 :=
        ⟨⌊b.tokens⌋₊ - 1, (Nat.succ_pred_eq_of_pos hm).symm⟩
      rw [hmeq]
      simp [Nat.succ_min_succ, List.replicate_succ, Nat.succ_sub_succ]
    · have hfst : (TokenBucket.allowOne cfg b now).1 = false := by
        simp [TokenBucket.allowOne, hrefill, hadm]
      have hsnd : (TokenBucket.allowOne cfg b now).2 = b := by
        simp [TokenBucket.allowOne, hrefill, hadm]
      rw [hfst, hsnd, ih b hlast h0 h1]
      have hfl : ⌊b.tokens⌋₊ = 0 := Nat.floor_eq_zero.mpr (lt_of_not_le hadm)
      simp [hfl, List.replicate_succ]

theorem floor_min_cast (B : ℕ) (x : ℚ) :
    ⌊min (B : ℚ) x⌋₊ = min B ⌊x⌋₊ := by
  rcases le_total x (B : ℚ) with h | h
  · rw [min_eq_right h]
    have hf : ⌊x⌋₊ ≤ B := by
      have := Nat.floor_le_floor h
      simpa using this
    rw [min_eq_right hf]
  · rw [min_eq_left h]
    have hf : B ≤ ⌊x⌋₊ := Nat.le_floor h
    rw [min_eq_left hf]
    simp

theorem cleanup_subset (rl : RateLimiter) (now : ℚ) (k : String)
    (cl : ClientLimiter)
    (h : (RateLimiter.cleanupExpiredClients rl now).clients k = some cl) :
    rl.clients k = some cl := by
  cases hc : rl.clients k with
  | none => simp [RateLimiter.cleanupExpiredClients, hc] at h
  | some cl' =>
    by_cases hl : cl'.lastSeen < now - rl.config.CleanupInterval * 2
    · simp [RateLimiter.cleanupExpiredClients, hc, hl] at h
    · simp [RateLimiter.cleanupExpiredClients, hc, hl] at h
      rw [h]

theorem allowOne_bounds (cfg : RateLimitConfig) (b : TokenBucket) (now : ℚ)
    (hr : 0 ≤ (cfg.RequestsPerSecond : ℚ)) (hB : 0 ≤ (cfg.BurstSize : ℚ))
    (h0 : 0 ≤ b.tokens) (hlast : b.lastRefillTime ≤ now) :
    0 ≤ (TokenBucket.allowOne cfg b now).2.tokens ∧
    (TokenBucket.allowOne cfg b now).2.tokens ≤ (cfg.BurstSize : ℚ) := by
  have hre0 : 0 ≤ (TokenBucket.refill cfg b now).tokens :=
    le_min hB (add_nonneg h0 (mul_nonneg (sub_nonneg.mpr hlast) hr))
  have hreB : (TokenBucket.refill cfg b now).tokens ≤ (cfg.BurstSize : ℚ) :=
    min_le_left _ _
  by_cases h : 1 ≤ (TokenBucket.refill cfg b now).tokens
  · have h2 : (TokenBucket.allowOne cfg b now).2
        = { TokenBucket.refill cfg b now with
            tokens := (TokenBucket.refill cfg b now).tokens - 1 } := by
      simp [TokenBucket.allowOne, h]
    rw [h2]
    constructor
    · simp only []
      linarith
    · simp only []
      linarith
  · have h2 : (TokenBucket.allowOne cfg b now).2
        = TokenBucket.refill cfg b now := by
      simp [TokenBucket.allowOne, h]
    rw [h2]
    exact ⟨hre0, hreB⟩

theorem allowOne_fst_true_iff (cfg : RateLimitConfig) (b : TokenBucket)
    (now : ℚ) :
    (TokenBucket.allowOne cfg b now).1 = true ↔
      1 ≤ (TokenBucket.refill cfg b now).tokens := by
  by_cases h : 1 ≤ (TokenBucket.refill cfg b now).tokens <;>
    simp [TokenBucket.allowOne, h]

theorem allowOne_snd_of_true (cfg : RateLimitConfig) (b : TokenBucket)
    (now : ℚ) (h : (TokenBucket.allowOne cfg b now).1 = true) :
    (TokenBucket.allowOne cfg b now).2.tokens
      = (TokenBucket.refill cfg b now).tokens - 1 := by
  have h1 := (allowOne_fst_true_iff cfg b now).mp h
  simp [TokenBucket.allowOne, h1]

theorem allowOne_snd_of_false (cfg : RateLimitConfig) (b : TokenBucket)
    (now : ℚ) (h : (TokenBucket.allowOne cfg b now).1 = false) :
    (TokenBucket.allowOne cfg b now).2.tokens
      = (TokenBucket.refill cfg b now).tokens := by
  have h1 : ¬ 1 ≤ (TokenBucket.refill cfg b now).tokens := by
    intro hc
    rw [(allowOne_fst_true_iff cfg b now).mpr hc] at h
    exact Bool.noConfusion h
  simp [TokenBucket.allowOne, h1]

theorem allowMany_config (rl : RateLimiter) (a : String) (ts : List ℚ) :
    (allowMany rl a ts).config = rl.config := by
  induction ts generalizing rl with
  | nil => rfl
  | cons t ts ih => rw [allowMany, ih, allow_config]

theorem allowMany_clients_ne (rl : RateLimiter) (a b : String) (ts : List ℚ)
    (h : b ≠ a) :
    (allowMany rl a ts).clients b = rl.clients b := by
  induction ts generalizing rl with
  | nil => rfl
  | cons t ts ih => rw [allowMany, ih, allow_clients_ne rl a b t h]

theorem allow_fst_congr (rl rl2 : RateLimiter) (id : String) (now : ℚ)
    (hcfg : rl.config = rl2.config) (hcl : rl.clients id = rl2.clients id) :
    (RateLimiter.allow rl id now).1 = (RateLimiter.allow rl2 id now).1 := by
  cases hc : rl.clients id with
  | none =>
    rw [allow_fst_none rl id now hc,
      allow_fst_none rl2 id now (hcl.symm.trans hc), hcfg]
  | some cl =>
    rw [allow_fst_some rl id now cl hc,
      allow_fst_some rl2 id now cl (hcl.symm.trans hc), hcfg]

theorem allowOne_burst_zero (cfg : RateLimitConfig) (b : TokenBucket)
    (now : ℚ) (hB : cfg.BurstSize = 0) :
    (TokenBucket.allowOne cfg b now).1 = false := by
  have h : (TokenBucket.refill cfg b now).tokens ≤ 0 := by
    show min ((cfg.BurstSize : Int) : ℚ)
        (b.tokens + (now - b.lastRefillTime) * (cfg.RequestsPerSecond : ℚ)) ≤ 0
    rw [hB]
    simp
  have h1 : ¬ 1 ≤ (TokenBucket.refill cfg b now).tokens := by
    intro hc
    linarith
  simp [TokenBucket.allowOne, h1]

/-! ### The claims -/

/-- C1: for every policy with `burstSize = N` (`N ≥ 1`) and every client
identifier, a freshly created client (first sighting, or first request
after eviction — both are registry states where the identifier is absent)
is admitted on exactly its first `N` consecutive immediate requests and
denied on the `(N+1)`th. -/
theorem burstAdmission (rl : RateLimiter) (id : String) (now : ℚ) (N : ℕ)
    (hfresh : rl.clients id = none) (hB : rl.config.BurstSize = (N : ℤ))
    (_hN : 1 ≤ N) :
    allowSeq rl id now (N + 1) = List.replicate N true ++ [false] := by
  rw [allowSeq_none (N + 1) rl id now hfresh]
  have hfb : (TokenBucket.fresh rl.config now).tokens = (N : ℚ) := by
    simp [TokenBucket.fresh, hB]
  rw [bucketAllowSeq_replicate rl.config N hB now (N + 1)
      (TokenBucket.fresh rl.config now) rfl
      (by rw [hfb]; positivity) (le_of_eq hfb)]
  rw [hfb, Nat.floor_natCast, min_eq_right (Nat.le_succ N)]
  have hs : N + 1 - N = 1 := by omega
  rw [hs]
  rfl

/-- Witness for C1: burst size 2, three immediate requests from a fresh
client give `[true, true, false]`. -/
theorem burstAdmission_witness :
    allowSeq (NewRateLimiter ⟨10, 2, 300⟩) "a" 0 (2 + 1)
      = List.replicate 2 true ++ [false] :=
  burstAdmission (NewRateLimiter ⟨10, 2, 300⟩) "a" 0 2 rfl rfl (by norm_num)

/-- C2: on a janitor tick at time `now`, with
`cutoff = now - 2 * cleanupInterval`, exactly the entries whose `lastSeen`
is strictly before the cutoff are removed: an entry is absent after the
sweep iff it was absent before or was idle past the cutoff, and every
entry seen at or after the cutoff survives unchanged. -/
theorem idleEviction (rl : RateLimiter) (now : ℚ) (id : String) :
    ((RateLimiter.cleanupExpiredClients rl now).clients id = none ↔
      (rl.clients id = none ∨
        ∃ cl, rl.clients id = some cl ∧
          cl.lastSeen < now - rl.config.CleanupInterval * 2)) ∧
    (∀ cl, rl.clients id = some cl →
      now - rl.config.CleanupInterval * 2 ≤ cl.lastSeen →
      (RateLimiter.cleanupExpiredClients rl now).clients id = some cl) := by
  constructor
  · cases hc : rl.clients id with
    | none => simp [RateLimiter.cleanupExpiredClients, hc]
    | some cl =>
      by_cases hl : cl.lastSeen < now - rl.config.CleanupInterval * 2
      · simp [RateLimiter.cleanupExpiredClients, hc, hl]
      · simp [RateLimiter.cleanupExpiredClients, hc, hl]
  · intro cl hcl hge
    simp [RateLimiter.cleanupExpiredClients, hcl, not_lt.mpr hge]

/-- Witness for C2: with `cleanupInterval = 1` and a sweep at `now = 10`,
a client last seen at `9` (at or after the cutoff `8`) survives. -/
theorem idleEviction_witness :
    (RateLimiter.cleanupExpiredClients
        ⟨fun k => if k = "a" then some ⟨⟨1, 0⟩, 9⟩ else none, ⟨1, 3, 1⟩⟩
        10).clients "a" = some ⟨⟨1, 0⟩, 9⟩ :=
  (idleEviction _ 10 "a").2 ⟨⟨1, 0⟩, 9⟩ (by simp) (by norm_num)

/-- C3: for `K > N` admission checks for the same identifier against a
fresh registry with `burstSize = N`, exactly `N` return true and `K - N`
return false. The source's mutex serializes concurrent `allow` calls, so
every interleaving of `K` identical calls is this sequential run. -/
theorem concurrentExhaustion (cfg : RateLimitConfig) (id : String) (now : ℚ)
    (N K : ℕ) (hB : cfg.BurstSize = (N : ℤ)) (hNK : N < K) :
    (allowSeq (NewRateLimiter cfg) id now K).count true = N ∧
    (allowSeq (NewRateLimiter cfg) id now K).count false = K - N := by
  rw [allowSeq_none K (NewRateLimiter cfg) id now rfl]
  have hc : (NewRateLimiter cfg).config = cfg := rfl
  rw [hc]
  have hfb : (TokenBucket.fresh cfg now).tokens = (N : ℚ) := by
    simp [TokenBucket.fresh, hB]
  rw [bucketAllowSeq_replicate cfg N hB now K (TokenBucket.fresh cfg now) rfl
      (by rw [hfb]; positivity) (le_of_eq hfb)]
  rw [hfb, Nat.floor_natCast, min_eq_right (le_of_lt hNK)]
  constructor <;> simp [List.count_append, List.count_replicate]

/-- Witness for C3: burst 2, five simultaneous requests — exactly 2
admitted, 3 denied. -/
theorem concurrentExhaustion_witness :
    (allowSeq (NewRateLimiter ⟨10, 2, 300⟩) "a" 0 5).count true = 2 ∧
    (allowSeq (NewRateLimiter ⟨10, 2, 300⟩) "a" 0 5).count false = 5 - 2 :=
  concurrentExhaustion ⟨10, 2, 300⟩ "a" 0 2 5 rfl (by norm_num)

/-- C4 counterexample: contrary to the claim, `RequestsPerSecond` is an
`int` field in the source, so no configuration carries the sub-1 rate
`0.5`: the effective rate of every `RateLimitConfig` is never `1/2`. -/
theorem rateFloatCounterexample :
    ¬ ∃ cfg : RateLimitConfig, (cfg.RequestsPerSecond : ℚ) = 1 / 2 := by
  rintro ⟨cfg, h⟩
  have h2 : (2 : ℚ) * (cfg.RequestsPerSecond : ℚ) = 1 := by
    rw [h]; norm_num
  have h3 : ((2 * cfg.RequestsPerSecond : Int) : ℚ) = ((1 : Int) : ℚ) := by
    push_cast
    linarith
  have h4 : (2 * cfg.RequestsPerSecond : Int) = 1 := by exact_mod_cast h3
  omega

/-- C4 (amended): the configured rate is always a whole number of tokens
per second (the config field is an integer), and the refill computation on
that rate is exact real arithmetic — below the burst cap the refilled
token count is exactly `tokens + elapsed * rate`, with no truncation of
intermediate amounts. -/
theorem rateIntegerRefillExact (cfg : RateLimitConfig) (b : TokenBucket)
    (now : ℚ)
    (hcap : b.tokens + (now - b.lastRefillTime) * (cfg.RequestsPerSecond : ℚ)
        ≤ (cfg.BurstSize : ℚ)) :
    (∃ n : Int, (cfg.RequestsPerSecond : ℚ) = (n : ℚ)) ∧
    (TokenBucket.refill cfg b now).tokens
      = b.tokens + (now - b.lastRefillTime) * (cfg.RequestsPerSecond : ℚ) :=
  ⟨⟨cfg.RequestsPerSecond, rfl⟩, min_eq_right hcap⟩

/-- Witness for C4 (amended): rate 1, a drained bucket refilled after half
a second holds exactly half a token — the fraction is preserved. -/
theorem rateIntegerRefillExact_witness :
    (∃ n : Int, (((1 : Int) : ℚ)) = (n : ℚ)) ∧
    (TokenBucket.refill ⟨1, 3, 1⟩ ⟨0, 0⟩ (1 / 2)).tokens
      = 0 + ((1 / 2 : ℚ) - 0) * ((1 : Int) : ℚ) :=
  rateIntegerRefillExact ⟨1, 3, 1⟩ ⟨0, 0⟩ (1 / 2) (by norm_num)

/-- C5: a fully drained client (`tokens = 0`), after waiting `e` seconds
with no intervening requests, is admitted on exactly
`min burstSize ⌊e * requestsPerSecond⌋` further immediate requests and
denied on the next one. -/
theorem drainedRefillFloor (rl : RateLimiter) (id : String)
    (cl : ClientLimiter) (e : ℚ) (B : ℕ)
    (hcl : rl.clients id = some cl) (htok : cl.limiter.tokens = 0)
    (hB : rl.config.BurstSize = (B : ℤ)) (he : 0 ≤ e)
    (hr : 0 ≤ (rl.config.RequestsPerSecond : ℚ)) :
    allowSeq rl id (cl.limiter.lastRefillTime + e)
        (min B ⌊e * (rl.config.RequestsPerSecond : ℚ)⌋₊ + 1)
      = List.replicate (min B ⌊e * (rl.config.RequestsPerSecond : ℚ)⌋₊) true
          ++ [false] := by
  rw [allowSeq_some (min B ⌊e * (rl.config.RequestsPerSecond : ℚ)⌋₊ + 1) rl id
      (cl.limiter.lastRefillTime + e) cl hcl]
  rw [← bucketAllowSeq_refill rl.config cl.limiter
      (cl.limiter.lastRefillTime + e)]
  have hb : TokenBucket.refill rl.config cl.limiter
      (cl.limiter.lastRefillTime + e)
      = { tokens := min (B : ℚ) (e * (rl.config.RequestsPerSecond : ℚ)),
          lastRefillTime := cl.limiter.lastRefillTime + e } := by
    simp [TokenBucket.refill, htok, hB]
  rw [hb]
  rw [bucketAllowSeq_replicate rl.config B hB (cl.limiter.lastRefillTime + e) _
      { tokens := min (B : ℚ) (e * (rl.config.RequestsPerSecond : ℚ)),
        lastRefillTime := cl.limiter.lastRefillTime + e } rfl
      (le_min (Nat.cast_nonneg B) (mul_nonneg he hr))
      (min_le_left _ _)]
  simp only [floor_min_cast]
  have hmin : ∀ m : ℕ, min (m + 1) m = m := fun m => min_eq_right (Nat.le_succ m)
  have hsub : ∀ m : ℕ, m + 1 - m = 1 := fun m => by omega
  rw [hmin, hsub]
  rfl

/-- Witness for C5: rate 2, burst 3, a drained client waits one second and
is then admitted exactly twice before the next denial. -/
theorem drainedRefillFloor_witness :
    allowSeq ⟨fun k => if k = "a" then some ⟨⟨0, 0⟩, 0⟩ else none, ⟨2, 3, 1⟩⟩
        "a" (0 + 1) 3 = [true, true, false] := by
  have h := drainedRefillFloor
      ⟨fun k => if k = "a" then some ⟨⟨0, 0⟩, 0⟩ else none, ⟨2, 3, 1⟩⟩
      "a" ⟨⟨0, 0⟩, 0⟩ 1 3 (by simp) rfl rfl (by norm_num) (by norm_num)
  norm_num at h
  simpa using h

/-- C6: the token count of every client state reachable by an `allow` call
or a janitor sweep stays in `[0, burstSize]` (given a non-negative rate
and burst and time moving forward), and at the bucket level a denial
leaves the tokens at their refilled value while an admission subtracts
exactly 1 from a refilled value that is at least 1. -/
theorem tokensInvariant (rl : RateLimiter) (id : String) (now : ℚ)
    (hr : 0 ≤ (rl.config.RequestsPerSecond : ℚ))
    (hB : 0 ≤ (rl.config.BurstSize : ℚ))
    (hvalid : ∀ k cl, rl.clients k = some cl →
      0 ≤ cl.limiter.tokens ∧ cl.limiter.tokens ≤ (rl.config.BurstSize : ℚ))
    (htime : ∀ k cl, rl.clients k = some cl →
      cl.limiter.lastRefillTime ≤ now) :
    (∀ k cl, ((RateLimiter.allow rl id now).2).clients k = some cl →
      0 ≤ cl.limiter.tokens ∧ cl.limiter.tokens ≤ (rl.config.BurstSize : ℚ)) ∧
    (∀ k cl, (RateLimiter.cleanupExpiredClients rl now).clients k = some cl →
      0 ≤ cl.limiter.tokens ∧ cl.limiter.tokens ≤ (rl.config.BurstSize : ℚ)) ∧
    (∀ b : TokenBucket, 0 ≤ b.tokens → b.lastRefillTime ≤ now →
      ((TokenBucket.allowOne rl.config b now).1 = false →
        (TokenBucket.allowOne rl.config b now).2.tokens
          = (TokenBucket.refill rl.config b now).tokens) ∧
      ((TokenBucket.allowOne rl.config b now).1 = true →
        1 ≤ (TokenBucket.refill rl.config b now).tokens ∧
        (TokenBucket.allowOne rl.config b now).2.tokens
          = (TokenBucket.refill rl.config b now).tokens - 1)) := by
  refine ⟨?_, ?_, ?_⟩
  · intro k cl h
    by_cases hk : k = id
    · subst hk
      cases hc : rl.clients k with
      | none =>
        rw [allow_clients_self_none rl k now hc] at h
        cases h
        exact allowOne_bounds rl.config (TokenBucket.fresh rl.config now) now
          hr hB (by simpa [TokenBucket.fresh] using hB) (le_refl now)
      | some cl' =>
        rw [allow_clients_self_some rl k now cl' hc] at h
        cases h
        exact allowOne_bounds rl.config cl'.limiter now hr hB
          (hvalid k cl' hc).1 (htime k cl' hc)
    · rw [allow_clients_ne rl id k now hk] at h
      exact hvalid k cl h
  · intro k cl h
    exact hvalid k cl (cleanup_subset rl now k cl h)
  · intro b _ _
    refine ⟨allowOne_snd_of_false rl.config b now, fun ht => ?_⟩
    exact ⟨(allowOne_fst_true_iff rl.config b now).mp ht,
      allowOne_snd_of_true rl.config b now ht⟩

/-- Witness for C6: after the first request of a fresh client under the
default policy, the stored token count is within `[0, 20]`. -/
theorem tokensInvariant_witness :
    0 ≤ ((TokenBucket.allowOne DefaultRateLimitConfig
          (TokenBucket.fresh DefaultRateLimitConfig 0) 0).2).tokens ∧
    ((TokenBucket.allowOne DefaultRateLimitConfig
          (TokenBucket.fresh DefaultRateLimitConfig 0) 0).2).tokens
      ≤ (DefaultRateLimitConfig.BurstSize : ℚ) :=
  (tokensInvariant (NewRateLimiter DefaultRateLimitConfig) "a" 0
      (by norm_num [NewRateLimiter, DefaultRateLimitConfig])
      (by norm_num [NewRateLimiter, DefaultRateLimitConfig])
      (fun k cl h => by simp [NewRateLimiter] at h)
      (fun k cl h => by simp [NewRateLimiter] at h)).1 "a"
    ⟨(TokenBucket.allowOne DefaultRateLimitConfig
        (TokenBucket.fresh DefaultRateLimitConfig 0) 0).2, 0⟩
    (allow_clients_self_none (NewRateLimiter DefaultRateLimitConfig) "a" 0 rfl)

/-- C7: `allow` calls for client `a` never touch a distinct client `b`:
after any sequence of calls for `a`, client `b`'s stored state (hence its
token count) is unchanged and its next admission decision is the same as
before the sequence. -/
theorem perClientIndependence (rl : RateLimiter) (a b : String)
    (ts : List ℚ) (now : ℚ) (hne : a ≠ b) :
    (allowMany rl a ts).clients b = rl.clients b ∧
    (RateLimiter.allow (allowMany rl a ts) b now).1
      = (RateLimiter.allow rl b now).1 := by
  refine ⟨allowMany_clients_ne rl a b ts (Ne.symm hne), ?_⟩
  exact allow_fst_congr (allowMany rl a ts) rl b now
    (allowMany_config rl a ts) (allowMany_clients_ne rl a b ts (Ne.symm hne))

/-- Witness for C7: three requests from client `a` leave client `b`'s
entry and next decision untouched. -/
theorem perClientIndependence_witness :
    (allowMany (NewRateLimiter DefaultRateLimitConfig) "a" [0, 0, 0]).clients "b"
        = (NewRateLimiter DefaultRateLimitConfig).clients "b" ∧
    (RateLimiter.allow (allowMany (NewRateLimiter DefaultRateLimitConfig)
        "a" [0, 0, 0]) "b" 0).1
      = (RateLimiter.allow (NewRateLimiter DefaultRateLimitConfig) "b" 0).1 :=
  perClientIndependence (NewRateLimiter DefaultRateLimitConfig) "a" "b"
    [0, 0, 0] 0 (by decide)

/-- C8: `allow` is total — for every identifier (unseen, empty, or
post-eviction) and every registry state it returns a boolean — and an
unseen identifier's state is created lazily by that very call. -/
theorem allowTotalLazyCreate (rl : RateLimiter) (id : String) (now : ℚ) :
    ((RateLimiter.allow rl id now).1 = true ∨
      (RateLimiter.allow rl id now).1 = false) ∧
    (rl.clients id = none →
      ((RateLimiter.allow rl id now).2).clients id
        = some { limiter := (TokenBucket.allowOne rl.config
                    (TokenBucket.fresh rl.config now) now).2,
                 lastSeen := now }) := by
  refine ⟨?_, fun h => allow_clients_self_none rl id now h⟩
  cases h : (RateLimiter.allow rl id now).1
  · exact Or.inr rfl
  · exact Or.inl rfl

/-- Witness for C8: the empty identifier, never seen before, gets a
decision and a freshly created entry. -/
theorem allowTotalLazyCreate_witness :
    ((RateLimiter.allow (NewRateLimiter DefaultRateLimitConfig) "" 0).1 = true ∨
      (RateLimiter.allow (NewRateLimiter DefaultRateLimitConfig) "" 0).1 = false) ∧
    ((RateLimiter.allow (NewRateLimiter DefaultRateLimitConfig) "" 0).2).clients ""
      = some { limiter := (TokenBucket.allowOne DefaultRateLimitConfig
                  (TokenBucket.fresh DefaultRateLimitConfig 0) 0).2,
               lastSeen := 0 } :=
  ⟨(allowTotalLazyCreate (NewRateLimiter DefaultRateLimitConfig) "" 0).1,
    (allowTotalLazyCreate (NewRateLimiter DefaultRateLimitConfig) "" 0).2 rfl⟩

/-- C9: the rate-limit key is resolved with this exact precedence: the
`X-Real-IP` header value if non-empty, else the `X-Forwarded-For` header
value if non-empty, else the transport-level peer address. -/
theorem clientIDPrecedence (rl : RateLimiter) (c : RequestContext) :
    (c.xRealIP ≠ "" → RateLimiter.getClientID rl c = c.xRealIP) ∧
    (c.xRealIP = "" → c.xForwardedFor ≠ "" →
      RateLimiter.getClientID rl c = c.xForwardedFor) ∧
    (c.xRealIP = "" → c.xForwardedFor = "" →
      RateLimiter.getClientID rl c = c.clientIP) := by
  refine ⟨fun h => ?_, fun h1 h2 => ?_, fun h1 h2 => ?_⟩
  · simp [RateLimiter.getClientID, h]
  · simp [RateLimiter.getClientID, h1, h2]
  · simp [RateLimiter.getClientID, h1, h2]

/-- Witness for C9: with an empty `X-Real-IP` and a non-empty
`X-Forwarded-For`, the forwarded address is the key. -/
theorem clientIDPrecedence_witness :
    RateLimiter.getClientID (NewRateLimiter DefaultRateLimitConfig)
      ⟨"", "10.0.0.7", "192.168.0.9"⟩ = "10.0.0.7" :=
  (clientIDPrecedence (NewRateLimiter DefaultRateLimitConfig)
    ⟨"", "10.0.0.7", "192.168.0.9"⟩).2.1 rfl (by decide)

/-- C10: `NewRateLimiter` validates nothing — it stores any configuration
verbatim, including a non-positive rate or a zero burst — and with
`BurstSize = 0` every `allow` call, for every identifier and every
registry state, returns false. -/
theorem noConstructionValidation (cfg : RateLimitConfig) (rl : RateLimiter)
    (id : String) (now : ℚ) (hB : rl.config.BurstSize = 0) :
    NewRateLimiter cfg = { clients := fun _ => none, config := cfg } ∧
    (RateLimiter.allow rl id now).1 = false := by
  refine ⟨rfl, ?_⟩
  cases hc : rl.clients id with
  | none =>
    rw [allow_fst_none rl id now hc]
    exact allowOne_burst_zero rl.config _ now hB
  | some cl =>
    rw [allow_fst_some rl id now cl hc]
    exact allowOne_burst_zero rl.config _ now hB

/-- Witness for C10: a config with negative rate and zero burst is
accepted unchanged, and its first request is denied. -/
theorem noConstructionValidation_witness :
    NewRateLimiter ⟨-3, 0, 300⟩
        = { clients := fun _ => none, config := ⟨-3, 0, 300⟩ } ∧
    (RateLimiter.allow (NewRateLimiter ⟨-3, 0, 300⟩) "a" 0).1 = false :=
  noConstructionValidation ⟨-3, 0, 300⟩ (NewRateLimiter ⟨-3, 0, 300⟩) "a" 0 rfl
